import Mathlib

/-
Shallow embedding of src/embedded/imu_chip/main.py: a dual linear-actuator
position synchronizer (encoder tracking, periodic control law, homing,
persisted position record, motion command API).

Python integers are modelled as Int; PWM duty magnitudes as Nat; pin levels
as Nat (0/1) or Bool.  `int((a + b) / 2)` in Python is float division
followed by truncation toward zero, i.e. `Int.tdiv (a + b) 2` for the
magnitudes that occur here.  The identity tag and the persisted file are
lists of characters.
-/

namespace ImuChip

/-- Controller state: the module-level mutable globals of main.py
(`name`, `m1_pos`, `m2_pos`, `active`, `target_pos`) together with the
observable outputs of the motor-driver collaborator (direction pin levels
and PWM duties for both motors) and a count of `store_pos` calls. -/
structure St where
  name : List Char
  m1_pos : Int
  m2_pos : Int
  active : Bool
  target_pos : Int
  m1_dir : Nat
  m2_dir : Nat
  m1_duty : Nat
  m2_duty : Nat
  writes : Nat
deriving DecidableEq

/-- Modelled from the spec: the PWM collaborator (`machine.PWM.duty_u16`,
firmware not under src/) clamps an out-of-range duty magnitude into the
16-bit duty range rather than rejecting it ("out-of-range magnitude is
clamped, not rejected"). -/
def duty_u16 (d : Nat) : Nat := min d 65535

/-- The spread-compensation part of `pos_handler` (main.py lines 110-125):
both speeds start at 63000; inside the extending branch (both diffs
negative) the actuator ahead by more than 5 ticks is reduced to 55000;
inside the retracting branch (both diffs positive) the actuator ahead
(lower) by more than 10 ticks is reduced to 55000.  The two branches are
mutually exclusive, so the sequential overwrites of the source collapse to
this if-chain per speed variable. -/
def sync_speeds (m1_pos m2_pos target_pos : Int) : Nat × Nat :=
  ((if m1_pos - target_pos < 0 ∧ m2_pos - target_pos < 0 ∧ m2_pos + 5 < m1_pos then 55000
    else if m1_pos - target_pos > 0 ∧ m2_pos - target_pos > 0 ∧ m2_pos - 10 > m1_pos then 55000
    else 63000),
   (if m1_pos - target_pos < 0 ∧ m2_pos - target_pos < 0 ∧ m1_pos + 5 < m2_pos then 55000
    else if m1_pos - target_pos > 0 ∧ m2_pos - target_pos > 0 ∧ m1_pos - 10 > m2_pos then 55000
    else 63000))

/-- One periodic control tick, `pos_handler` (main.py lines 104-147).
If inactive, both duties are forced to 0.  Otherwise each actuator
independently compares its diff to the ±10 dead-band; within the dead-band
it is commanded duty 0, and when motor 2 lands in its dead-band while the
per-tick `m1_stopped` flag is set, `store_pos` runs (counted in `writes`). -/
def pos_handler (s : St) : St :=
  if s.active = false then
    { s with m1_duty := 0, m2_duty := 0 }
  else
    let sp := sync_speeds s.m1_pos s.m2_pos s.target_pos
    let s1 :=
      if s.m1_pos - s.target_pos > 10 then { s with m1_dir := 0, m1_duty := duty_u16 sp.1 }
      else if s.m1_pos - s.target_pos < -10 then { s with m1_dir := 1, m1_duty := duty_u16 sp.1 }
      else { s with m1_duty := 0 }
    let m1_stopped : Bool :=
      if s.m1_pos - s.target_pos > 10 then false
      else if s.m1_pos - s.target_pos < -10 then false
      else true
    if s.m2_pos - s.target_pos > 10 then { s1 with m2_dir := 0, m2_duty := duty_u16 sp.2 }
    else if s.m2_pos - s.target_pos < -10 then { s1 with m2_dir := 1, m2_duty := duty_u16 sp.2 }
    else { s1 with m2_duty := 0,
                   writes := if m1_stopped then s1.writes + 1 else s1.writes }

/-- `set_speed` (main.py lines 71-80): sign selects the shared direction
pin level (negative speed gives 0), magnitude `abs(speed)` goes to both
PWM duties through the collaborator clamp. -/
def set_speed (s : St) (speed : Int) : St :=
  let direction : Nat := if speed < 0 then 0 else 1
  { s with m1_dir := direction, m2_dir := direction,
           m1_duty := duty_u16 speed.natAbs, m2_duty := duty_u16 speed.natAbs }

/-- `enc1_handler` (main.py lines 87-92): on a rising edge of phase A of
encoder 1, increment `m1_pos` if the sampled B level is low, else
decrement. -/
def enc1_handler (s : St) (b_level : Bool) : St :=
  if b_level = false then { s with m1_pos := s.m1_pos + 1 }
  else { s with m1_pos := s.m1_pos - 1 }

/-- `enc2_handler` (main.py lines 94-99): same for encoder 2 / `m2_pos`. -/
def enc2_handler (s : St) (b_level : Bool) : St :=
  if b_level = false then { s with m2_pos := s.m2_pos + 1 }
  else { s with m2_pos := s.m2_pos - 1 }

/-- Net signed edge count of a sequence of sampled B levels: +1 per low
sample, -1 per high sample. -/
def netCount (evs : List Bool) : Int :=
  ((evs.countP fun b => !b : Nat) : Int) - ((evs.countP fun b => b : Nat) : Int)

/-- `set_pos` (main.py lines 224-226). -/
def set_pos (s : St) (pos : Int) : St := { s with target_pos := pos }

/-- `activate` (main.py lines 232-234). -/
def activate (s : St) (state : Bool) : St := { s with active := state }

/-- `stop` (main.py lines 236-238): target becomes the truncated midpoint
of the current positions. -/
def stop (s : St) : St :=
  { s with target_pos := Int.tdiv (s.m1_pos + s.m2_pos) 2 }

/-- `extend` (main.py lines 240-242). -/
def extend (s : St) : St := { s with target_pos := 1000000 }

/-- `retract` (main.py lines 244-246). -/
def retract (s : St) : St := { s with target_pos := -1000000 }

/-- `create_offset` (main.py lines 285-287). -/
def create_offset (s : St) (amount : Int) : St :=
  { s with m2_pos := s.m2_pos + amount }

/-- Whether `pat` occurs at the start of `l` (both as character lists). -/
def startsWith : List Char → List Char → Bool
  | [], _ => true
  | _ :: _, [] => false
  | c :: cs, d :: ds => c = d && startsWith cs ds

/-- Python substring containment `pat in l`, by scanning every suffix. -/
def containsSub (pat : List Char) : List Char → Bool
  | [] => startsWith pat []
  | l@(_ :: rest) => startsWith pat l || containsSub pat rest

/-- The characters of the literal "lift". -/
def liftChars : List Char := ['l', 'i', 'f', 't']

/-- The stall-detection poll loop shared by both homing routines
(main.py lines 154-160 and 169-175): `last` holds the positions sampled
before the current 200 ms sleep; each element of `samples` is the pair of
positions observed after the next sleep.  The loop exits as soon as a
sample equals the previous one (no encoder motion over a full poll
interval); `none` means the trace ended without a stall, i.e. the source
loop is still running. -/
def stall_poll : (Int × Int) → List (Int × Int) → Option (Int × Int)
  | _, [] => none
  | last, cur :: rest => if cur = last then some cur else stall_poll cur rest

/-- `retract_home` (main.py lines 151-164): command continuous retraction,
poll until both positions stall, then reset both positions to 0 and call
`stop`. -/
def retract_home (s : St) (samples : List (Int × Int)) : Option St :=
  let s1 := retract s
  match stall_poll (s1.m1_pos, s1.m2_pos) samples with
  | none => none
  | some p =>
      let s2 := { s1 with m1_pos := p.1, m2_pos := p.2 }
      some (stop { s2 with m1_pos := 0, m2_pos := 0 })

/-- `extend_home` (main.py lines 166-181): command continuous extension,
poll until both positions stall, reset both positions to 4500, apply
`create_offset 50` when the identity tag contains "lift", then call
`stop`. -/
def extend_home (s : St) (samples : List (Int × Int)) : Option St :=
  let s1 := extend s
  match stall_poll (s1.m1_pos, s1.m2_pos) samples with
  | none => none
  | some p =>
      let s2 := { s1 with m1_pos := p.1, m2_pos := p.2 }
      let s3 := { s2 with m1_pos := 4500, m2_pos := 4500 }
      let s4 := if containsSub liftChars s3.name then create_offset s3 50 else s3
      some (stop s4)

/-- The character for a single decimal digit value. -/
def digitToChar (d : Nat) : Char := Char.ofNat (48 + d)

/-- Whether a character is a decimal digit. -/
def isDigitChar (c : Char) : Bool := 48 ≤ c.toNat && c.toNat ≤ 57

/-- Whitespace as stripped by Python `int()` (the characters that can
occur around the numeric lines here). -/
def isSpaceChar (c : Char) : Bool :=
  c = ' ' || c = '\n' || c = '\t' || c = '\r'

/-- Decimal digits of `n`, most significant first, empty for 0; the fuel
argument (any bound on `n`) makes the recursion structural so the kernel
can evaluate it. -/
def natStrAux : Nat → Nat → List Char
  | _, 0 => []
  | 0, _ + 1 => []
  | fuel + 1, n + 1 =>
      natStrAux fuel ((n + 1) / 10) ++ [digitToChar ((n + 1) % 10)]

/-- Python `str(n)` for a natural number: standard decimal, most
significant digit first, "0" for zero. -/
def natStr (n : Nat) : List Char :=
  if n = 0 then ['0'] else natStrAux n n

/-- Python `str(m)` for an integer: optional leading minus sign. -/
def intStr (m : Int) : List Char :=
  if m < 0 then '-' :: natStr m.natAbs else natStr m.natAbs

/-- The digit value of a character, if it is a digit. -/
def charDigit? (c : Char) : Option Nat :=
  if isDigitChar c then some (c.toNat - 48) else none

/-- Accumulating decimal scan: fails on the first non-digit. -/
def parseNatAux : List Char → Nat → Option Nat
  | [], acc => some acc
  | c :: cs, acc =>
      match charDigit? c with
      | some d => parseNatAux cs (acc * 10 + d)
      | none => none

/-- Decimal read of a nonempty all-digit string. -/
def parseNatChars (l : List Char) : Option Nat :=
  if l = [] then none else parseNatAux l 0

/-- Both-ends whitespace strip, as Python `int()` applies to its
argument. -/
def stripChars (l : List Char) : List Char :=
  ((l.dropWhile isSpaceChar).reverse.dropWhile isSpaceChar).reverse

/-- Sign dispatch of Python `int()` after stripping. -/
def pyIntAux : List Char → Option Int
  | [] => none
  | c :: cs =>
      if c = '-' then
        match parseNatChars cs with
        | some n => some (-(n : Int))
        | none => none
      else if c = '+' then
        match parseNatChars cs with
        | some n => some ((n : Int))
        | none => none
      else
        match parseNatChars (c :: cs) with
        | some n => some ((n : Int))
        | none => none

/-- Python `int(s)` on a character list: strip whitespace, optional sign,
decimal digits; `none` models the ValueError raise. -/
def pyIntChars (l : List Char) : Option Int := pyIntAux (stripChars l)

/-- Python `f.readline()`: the prefix up to and including the first
newline (the whole rest of the file if it has no newline), paired with
the remaining contents. -/
def readline : List Char → List Char × List Char
  | [] => ([], [])
  | c :: cs =>
      if c = '\n' then ([c], cs)
      else ((readline cs).1.cons c, (readline cs).2)

/-- `store_pos` (main.py lines 36-38): the written file contents
`name + str(m1_pos) + "\n" + str(m2_pos)`.  Note `name` is the first
readline of the previous file, so it already carries its trailing
newline. -/
def store_pos (name : List Char) (m1 m2 : Int) : List Char :=
  name ++ intStr m1 ++ '\n' :: intStr m2

/-- The startup load (main.py lines 28-31): three readlines; the second
and third go through `int()`.  `none` models an uncaught ValueError. -/
def loadInfo (file : List Char) : Option (List Char × Int × Int) :=
  let nm := (readline file).1
  let r1 := (readline file).2
  let l1 := (readline r1).1
  let r2 := (readline r1).2
  let l2 := (readline r2).1
  match pyIntChars l1, pyIntChars l2 with
  | some a, some b => some (nm, a, b)
  | _, _ => none

/-- The startup sequence of main.py: the three-line record seeds `name`,
`m1_pos`, `m2_pos` (lines 28-31); `active` starts false and `target_pos`
is the truncated midpoint of the loaded positions (lines 40-41); duties
start at 0 (lines 51, 63); the final statement is `activate(True)`
(line 289). -/
def startup (name : List Char) (m1 m2 : Int) : St :=
  activate
    { name := name, m1_pos := m1, m2_pos := m2, active := false,
      target_pos := Int.tdiv (m1 + m2) 2,
      m1_dir := 0, m2_dir := 0, m1_duty := 0, m2_duty := 0, writes := 0 }
    true

lemma netCount_cons (b : Bool) (t : List Bool) :
    netCount (b :: t) = (if b then -1 else 1) + netCount t := by
  cases b <;> simp [netCount, List.countP_cons] <;> ring

lemma foldl_enc1 (evs : List Bool) : ∀ s : St,
    (List.foldl enc1_handler s evs).m1_pos = s.m1_pos + netCount evs := by
  induction evs with
  | nil => intro s; simp [netCount]
  | cons b t ih =>
      intro s
      cases b <;>
        simp only [List.foldl_cons, enc1_handler, if_pos rfl, ih, netCount_cons] <;>
        simp <;> ring

lemma foldl_enc2 (evs : List Bool) : ∀ s : St,
    (List.foldl enc2_handler s evs).m2_pos = s.m2_pos + netCount evs := by
  induction evs with
  | nil => intro s; simp [netCount]
  | cons b t ih =>
      intro s
      cases b <;>
        simp only [List.foldl_cons, enc2_handler, if_pos rfl, ih, netCount_cons] <;>
        simp <;> ring

/-- Claim C3: when ActiveFlag is false, the control tick forces both PWM
duties to 0 and changes nothing else (no direction change, no store
write, no position or target change), whatever the positions and target
are. -/
theorem inactive_tick_zero_drive (s : St) (h : s.active = false) :
    pos_handler s = { s with m1_duty := 0, m2_duty := 0 } := by
  simp [pos_handler, h]

/-- Witness for C3 at a concrete inactive state with nonzero duties and a
far-away target. -/
theorem inactive_tick_zero_drive_witness :
    pos_handler { name := [], m1_pos := 3, m2_pos := -4, active := false,
                  target_pos := 500, m1_dir := 1, m2_dir := 0,
                  m1_duty := 63000, m2_duty := 55000, writes := 2 } =
      { name := [], m1_pos := 3, m2_pos := -4, active := false,
        target_pos := 500, m1_dir := 1, m2_dir := 0,
        m1_duty := 0, m2_duty := 0, writes := 2 } :=
  inactive_tick_zero_drive _ rfl

/-- Claim C4: for every integer speed, `set_speed` never fails and the
commanded PWM duty on both motors is `min |speed| 65535` (out-of-range
magnitude is clamped by the PWM collaborator, not rejected); the sign
selects the shared direction pin level. -/
theorem set_speed_clamps (s : St) (speed : Int) :
    (set_speed s speed).m1_duty = min speed.natAbs 65535 ∧
    (set_speed s speed).m2_duty = min speed.natAbs 65535 ∧
    (set_speed s speed).m1_dir = (if speed < 0 then 0 else 1) ∧
    (set_speed s speed).m2_dir = (if speed < 0 then 0 else 1) :=
  ⟨rfl, rfl, rfl, rfl⟩

/-- Claim C8: `stop` sets the target to the truncated midpoint of the two
current positions and changes nothing else; `extend` and `retract` set
the target to the fixed saturating values 1000000 and -1000000; none of
the three touches the motor outputs (the record equalities keep every
duty and direction field of `s`). -/
theorem motion_api_targets (s : St) :
    stop s = { s with target_pos := Int.tdiv (s.m1_pos + s.m2_pos) 2 } ∧
    extend s = { s with target_pos := 1000000 } ∧
    retract s = { s with target_pos := -1000000 } :=
  ⟨rfl, rfl, rfl⟩

/-- Claim C9: for every starting position and every finite sequence of
phase-A rising edges with sampled B levels, the tracked position equals
the start plus the net signed count (+1 per low B sample, -1 per high),
for either encoder handler. -/
theorem encoder_net_count (s : St) (evs : List Bool) :
    (List.foldl enc1_handler s evs).m1_pos = s.m1_pos + netCount evs ∧
    (List.foldl enc2_handler s evs).m2_pos = s.m2_pos + netCount evs :=
  ⟨foldl_enc1 evs s, foldl_enc2 evs s⟩

/-- Claim C10: after the startup script, ActiveFlag is true (the last
startup statement is `activate(True)`) and the target is the truncated
midpoint of the loaded positions; with loaded positions 200 and 0 the
very first tick already drives both motors at duty 63000 although no
motion command was issued. -/
theorem startup_active_midpoint :
    (∀ (name : List Char) (m1 m2 : Int),
        (startup name m1 m2).active = true ∧
        (startup name m1 m2).target_pos = Int.tdiv (m1 + m2) 2) ∧
    (pos_handler (startup [] 200 0)).m1_duty = 63000 ∧
    (pos_handler (startup [] 200 0)).m2_duty = 63000 :=
  ⟨fun _ _ _ => ⟨rfl, rfl⟩, by decide, by decide⟩

/-- Claim C1 counterexample: starting settled (both positions equal to
the target) with zero prior writes, the first tick writes the store once
and a second tick, during which nothing moved (holding steady inside the
dead-band), writes again: two writes for one settle event, so a write is
not restricted to the transition into the settled state. -/
theorem settle_write_every_tick_cex :
    (pos_handler { name := [], m1_pos := 0, m2_pos := 0, active := true,
                   target_pos := 0, m1_dir := 0, m2_dir := 0,
                   m1_duty := 0, m2_duty := 0, writes := 0 }).writes = 1 ∧
    (pos_handler (pos_handler
        { name := [], m1_pos := 0, m2_pos := 0, active := true,
          target_pos := 0, m1_dir := 0, m2_dir := 0,
          m1_duty := 0, m2_duty := 0, writes := 0 })).writes = 2 := by
  decide

/-- Claim C1 amended: on every active tick in which both actuators are
within the ±10 dead-band, `pos_handler` triggers exactly one store write
(the write count grows by one on every such tick, also while holding
steady); on every other active tick it triggers none.  There is no
transition detection across ticks. -/
theorem settle_write_iff_deadband (s : St) (ha : s.active = true) :
    (pos_handler s).writes =
      if -10 ≤ s.m1_pos - s.target_pos ∧ s.m1_pos - s.target_pos ≤ 10 ∧
         -10 ≤ s.m2_pos - s.target_pos ∧ s.m2_pos - s.target_pos ≤ 10
      then s.writes + 1 else s.writes := by
  simp only [pos_handler, ha]
  split_ifs <;> simp_all <;> omega

/-- Witness for C1 amended: a settled tick increments the write count. -/
theorem settle_write_iff_deadband_witness :
    (pos_handler { name := [], m1_pos := 95, m2_pos := 105, active := true,
                   target_pos := 100, m1_dir := 0, m2_dir := 0,
                   m1_duty := 63000, m2_duty := 0, writes := 4 }).writes = 5 := by
  rw [settle_write_iff_deadband _ rfl]
  decide

/-- Claim C2 counterexample: at `m1_pos = 100, m2_pos = 80,
target = -1000` with ActiveFlag true, both diffs are positive
(retracting), and the tick drives motor 1 (actuator A) at the full duty
63000 and motor 2 (actuator B) at the reduced duty 55000 — the opposite
assignment of the one claimed. -/
theorem spread_concrete_cex :
    (pos_handler { name := [], m1_pos := 100, m2_pos := 80, active := true,
                   target_pos := -1000, m1_dir := 0, m2_dir := 0,
                   m1_duty := 0, m2_duty := 0, writes := 0 }).m1_duty = 63000 ∧
    (pos_handler { name := [], m1_pos := 100, m2_pos := 80, active := true,
                   target_pos := -1000, m1_dir := 0, m2_dir := 0,
                   m1_duty := 0, m2_duty := 0, writes := 0 }).m2_duty = 55000 ∧
    ¬ ((pos_handler { name := [], m1_pos := 100, m2_pos := 80, active := true,
                      target_pos := -1000, m1_dir := 0, m2_dir := 0,
                      m1_duty := 0, m2_duty := 0, writes := 0 }).m1_duty = 55000 ∧
       (pos_handler { name := [], m1_pos := 100, m2_pos := 80, active := true,
                      target_pos := -1000, m1_dir := 0, m2_dir := 0,
                      m1_duty := 0, m2_duty := 0, writes := 0 }).m2_duty = 63000) := by
  decide

/-- Claim C2 amended: when both diffs have the same sign and one actuator
leads the other (is closer to the target) by more than the
direction-specific margin — more than 5 ticks when both extend, more than
10 ticks when both retract — the leading actuator's nominal speed is
reduced from 63000 to 55000 while the lagging one keeps 63000.  At the
concrete input `m1_pos = 100, m2_pos = 80, target = -1000` both diffs are
positive, actuator B leads, so B gets 55000 and A keeps 63000. -/
theorem spread_leader_reduced (m1 m2 t : Int) :
    ((m1 - t < 0 ∧ m2 - t < 0 ∧ m1 + 5 < m2) →
        sync_speeds m1 m2 t = (63000, 55000)) ∧
    ((m1 - t < 0 ∧ m2 - t < 0 ∧ m2 + 5 < m1) →
        sync_speeds m1 m2 t = (55000, 63000)) ∧
    ((m1 - t > 0 ∧ m2 - t > 0 ∧ m1 - 10 > m2) →
        sync_speeds m1 m2 t = (63000, 55000)) ∧
    ((m1 - t > 0 ∧ m2 - t > 0 ∧ m2 - 10 > m1) →
        sync_speeds m1 m2 t = (55000, 63000)) := by
  refine ⟨fun h => ?_, fun h => ?_, fun h => ?_, fun h => ?_⟩ <;>
    obtain ⟨h1, h2, h3⟩ := h <;>
    simp only [sync_speeds, Prod.mk.injEq] <;>
    split_ifs <;> first | exact ⟨rfl, rfl⟩ | omega

/-- Witness for C2 amended at the concrete input of the claim (retract
case, actuator B leading by 20 > 10). -/
theorem spread_leader_reduced_witness :
    ((100 : Int) - (-1000) > 0 ∧ (80 : Int) - (-1000) > 0 ∧
        (100 : Int) - 10 > 80) ∧
    sync_speeds 100 80 (-1000) = (63000, 55000) :=
  ⟨by decide, (spread_leader_reduced 100 80 (-1000)).2.2.1 (by decide)⟩

/-- Claim C5: on an active tick each actuator is decided independently
against the ±10 dead-band: diff above 10 drives it in the retract
direction (direction pin 0) at its possibly-reduced nominal speed, diff
below -10 drives it in the extend direction (direction pin 1) at that
speed, and a diff within the dead-band commands duty 0. -/
theorem deadband_direction_decision (s : St) (ha : s.active = true) :
    (s.m1_pos - s.target_pos > 10 →
        (pos_handler s).m1_dir = 0 ∧
        (pos_handler s).m1_duty =
          duty_u16 (sync_speeds s.m1_pos s.m2_pos s.target_pos).1) ∧
    (s.m1_pos - s.target_pos < -10 →
        (pos_handler s).m1_dir = 1 ∧
        (pos_handler s).m1_duty =
          duty_u16 (sync_speeds s.m1_pos s.m2_pos s.target_pos).1) ∧
    (-10 ≤ s.m1_pos - s.target_pos → s.m1_pos - s.target_pos ≤ 10 →
        (pos_handler s).m1_duty = 0) ∧
    (s.m2_pos - s.target_pos > 10 →
        (pos_handler s).m2_dir = 0 ∧
        (pos_handler s).m2_duty =
          duty_u16 (sync_speeds s.m1_pos s.m2_pos s.target_pos).2) ∧
    (s.m2_pos - s.target_pos < -10 →
        (pos_handler s).m2_dir = 1 ∧
        (pos_handler s).m2_duty =
          duty_u16 (sync_speeds s.m1_pos s.m2_pos s.target_pos).2) ∧
    (-10 ≤ s.m2_pos - s.target_pos → s.m2_pos - s.target_pos ≤ 10 →
        (pos_handler s).m2_duty = 0) := by
  simp only [pos_handler, ha]
  split_ifs <;> simp_all <;> omega

/-- Witness for C5: motor 1 above the dead-band retracts at nominal
speed, motor 2 inside the dead-band is commanded 0. -/
theorem deadband_direction_decision_witness :
    ((200 : Int) - 100 > 10 ∧
      (pos_handler { name := [], m1_pos := 200, m2_pos := 105, active := true,
                     target_pos := 100, m1_dir := 1, m2_dir := 1,
                     m1_duty := 0, m2_duty := 63000, writes := 0 }).m1_dir = 0 ∧
      (pos_handler { name := [], m1_pos := 200, m2_pos := 105, active := true,
                     target_pos := 100, m1_dir := 1, m2_dir := 1,
                     m1_duty := 0, m2_duty := 63000, writes := 0 }).m1_duty =
        duty_u16 (sync_speeds 200 105 100).1) ∧
    (pos_handler { name := [], m1_pos := 200, m2_pos := 105, active := true,
                   target_pos := 100, m1_dir := 1, m2_dir := 1,
                   m1_duty := 0, m2_duty := 63000, writes := 0 }).m2_duty = 0 :=
  ⟨⟨by decide, (deadband_direction_decision _ rfl).1 (by decide)⟩,
    (deadband_direction_decision _ rfl).2.2.2.2.2 (by decide) (by decide)⟩

/-- Claim C6: whenever the stall poll of `retract_home` terminates (two
consecutive samples equal, i.e. neither position changed over one poll
interval), the routine resets both positions to 0 and the final `stop`
freezes the target at their midpoint 0, after having commanded continuous
retraction (target -1000000); `extend_home` likewise resets both
positions to 4500, adds the fixed offset 50 to actuator B's position
exactly when the identity tag contains "lift", and only then calls
`stop`, so the frozen target is the truncated midpoint of the offset
positions; it drives with target 1000000. -/
theorem homing_resets_positions (s : St) (samples : List (Int × Int)) (r : St) :
    (retract_home s samples = some r →
        r.m1_pos = 0 ∧ r.m2_pos = 0 ∧ r.target_pos = 0 ∧
        (retract s).target_pos = -1000000) ∧
    (extend_home s samples = some r →
        r.m1_pos = 4500 ∧
        r.m2_pos = 4500 + (if containsSub liftChars s.name then 50 else 0) ∧
        r.target_pos = Int.tdiv (r.m1_pos + r.m2_pos) 2 ∧
        (extend s).target_pos = 1000000) := by
  constructor
  · intro h
    simp only [retract_home] at h
    split at h
    · exact absurd h (by simp)
    · obtain rfl : _ = r := Option.some.inj h
      refine ⟨rfl, rfl, ?_, rfl⟩
      simp [stop, retract]
  · intro h
    simp only [extend_home] at h
    split at h
    · exact absurd h (by simp)
    · obtain rfl : _ = r := Option.some.inj h
      by_cases hc : containsSub liftChars s.name = true <;>
        simp [stop, extend, create_offset, hc]

/-- A concrete "lift" controller state for exercising the homing
routines. -/
def homeStart : St :=
  { name := ['l', 'i', 'f', 't'], m1_pos := 7, m2_pos := 9,
    active := true, target_pos := 3, m1_dir := 0, m2_dir := 0,
    m1_duty := 0, m2_duty := 0, writes := 0 }

/-- The state `retract_home homeStart [(7, 9)]` produces. -/
def homeRetractEnd : St :=
  { name := ['l', 'i', 'f', 't'], m1_pos := 0, m2_pos := 0,
    active := true, target_pos := 0, m1_dir := 0, m2_dir := 0,
    m1_duty := 0, m2_duty := 0, writes := 0 }

/-- The state `extend_home homeStart [(7, 9)]` produces. -/
def homeExtendEnd : St :=
  { name := ['l', 'i', 'f', 't'], m1_pos := 4500, m2_pos := 4550,
    active := true, target_pos := 4525, m1_dir := 0, m2_dir := 0,
    m1_duty := 0, m2_duty := 0, writes := 0 }

/-- Witness for C6: a trace whose first sample equals the pre-loop
positions stalls at once; with the "lift" tag the extend home lands at
(4500, 4550) and target 4525, the retract home at (0, 0) and target 0. -/
theorem homing_resets_positions_witness :
    (retract_home homeStart [(7, 9)] = some homeRetractEnd ∧
      homeRetractEnd.m1_pos = 0 ∧ homeRetractEnd.m2_pos = 0 ∧
      homeRetractEnd.target_pos = 0) ∧
    (extend_home homeStart [(7, 9)] = some homeExtendEnd ∧
      homeExtendEnd.m1_pos = 4500 ∧
      homeExtendEnd.m2_pos =
        4500 + (if containsSub liftChars homeStart.name then 50 else 0) ∧
      homeExtendEnd.target_pos =
        Int.tdiv (homeExtendEnd.m1_pos + homeExtendEnd.m2_pos) 2) := by
  have hr : retract_home homeStart [(7, 9)] = some homeRetractEnd := by decide
  have he : extend_home homeStart [(7, 9)] = some homeExtendEnd := by decide
  have H1 := (homing_resets_positions homeStart [(7, 9)] homeRetractEnd).1 hr
  have H2 := (homing_resets_positions homeStart [(7, 9)] homeExtendEnd).2 he
  exact ⟨⟨hr, H1.1, H1.2.1, H1.2.2.1⟩, he, H2.1, H2.2.1, H2.2.2.1⟩

lemma charDigit?_digitToChar {d : Nat} (h : d < 10) :
    charDigit? (digitToChar d) = some d := by
  interval_cases d <;> decide

lemma isDigitChar_digitToChar {d : Nat} (h : d < 10) :
    isDigitChar (digitToChar d) = true := by
  interval_cases d <;> decide

lemma digit_facts {c : Char} (h : isDigitChar c = true) :
    c ≠ '-' ∧ c ≠ '+' ∧ isSpaceChar c = false := by
  simp only [isDigitChar, Bool.and_eq_true, decide_eq_true_eq] at h
  refine ⟨?_, ?_, ?_⟩
  · rintro rfl; exact absurd h (by decide)
  · rintro rfl; exact absurd h (by decide)
  · have h1 : c ≠ ' ' := by rintro rfl; exact absurd h (by decide)
    have h2 : c ≠ '\n' := by rintro rfl; exact absurd h (by decide)
    have h3 : c ≠ '\t' := by rintro rfl; exact absurd h (by decide)
    have h4 : c ≠ '\r' := by rintro rfl; exact absurd h (by decide)
    simp [isSpaceChar, h1, h2, h3, h4]

lemma parseNatAux_append (l1 l2 : List Char) (acc : Nat) :
    parseNatAux (l1 ++ l2) acc =
      match parseNatAux l1 acc with
      | some a => parseNatAux l2 a
      | none => none := by
  induction l1 generalizing acc with
  | nil => simp [parseNatAux]
  | cons c cs ih =>
      simp only [List.cons_append, parseNatAux]
      cases charDigit? c with
      | none => rfl
      | some d => simp [ih]

lemma natStrAux_all_digits : ∀ fuel n : Nat, ∀ c ∈ natStrAux fuel n, isDigitChar c = true := by
  intro fuel
  induction fuel with
  | zero => intro n c hc; cases n <;> simp [natStrAux] at hc
  | succ f ih =>
      intro n c hc
      cases n with
      | zero => simp [natStrAux] at hc
      | succ m =>
          simp only [natStrAux, List.mem_append, List.mem_singleton] at hc
          rcases hc with hc | rfl
          · exact ih _ c hc
          · exact isDigitChar_digitToChar (Nat.mod_lt _ (by norm_num))

lemma parse_natStrAux : ∀ fuel n acc : Nat, n ≤ fuel →
    parseNatAux (natStrAux fuel n) acc =
      some (acc * 10 ^ (natStrAux fuel n).length + n) := by
  intro fuel
  induction fuel with
  | zero =>
      intro n acc h
      interval_cases n
      simp [natStrAux, parseNatAux]
  | succ f ih =>
      intro n acc h
      cases n with
      | zero => simp [natStrAux, parseNatAux]
      | succ m =>
          have hq : (m + 1) / 10 ≤ f := by
            have h2 := Nat.div_lt_self (Nat.succ_pos m) (by norm_num : 1 < 10)
            omega
          have hm : (m + 1) % 10 < 10 := Nat.mod_lt _ (by norm_num)
          rw [natStrAux, parseNatAux_append, ih _ acc hq]
          simp only [parseNatAux, charDigit?_digitToChar hm, List.length_append,
            List.length_singleton, Option.some.injEq]
          rw [pow_succ, ← mul_assoc]
          generalize acc * 10 ^ (natStrAux f ((m + 1) / 10)).length = B
          omega

lemma natStr_ne_nil (n : Nat) : natStr n ≠ [] := by
  unfold natStr
  split
  · simp
  · cases n with
    | zero => simp_all
    | succ m => rw [natStrAux]; simp

lemma natStr_all_digits (n : Nat) : ∀ c ∈ natStr n, isDigitChar c = true := by
  unfold natStr
  split
  · intro c hc
    simp only [List.mem_singleton] at hc
    subst hc
    decide
  · exact natStrAux_all_digits n n

lemma parseNatChars_natStr (n : Nat) : parseNatChars (natStr n) = some n := by
  cases hz : n with
  | zero => decide
  | succ m =>
      unfold parseNatChars
      rw [if_neg (by rw [← hz]; exact natStr_ne_nil n)]
      unfold natStr
      rw [if_neg (by omega)]
      rw [parse_natStrAux _ _ 0 (le_refl _)]
      simp

lemma intStr_ne_nil (m : Int) : intStr m ≠ [] := by
  unfold intStr
  split
  · simp
  · exact natStr_ne_nil _

lemma intStr_no_space (m : Int) : ∀ c ∈ intStr m, isSpaceChar c = false := by
  unfold intStr
  split <;> intro c hc
  · rcases List.mem_cons.mp hc with rfl | hc
    · decide
    · exact (digit_facts (natStr_all_digits _ c hc)).2.2
  · exact (digit_facts (natStr_all_digits _ c hc)).2.2

lemma intStr_no_newline (m : Int) : '\n' ∉ intStr m := fun hmem =>
  absurd (intStr_no_space m _ hmem) (by decide)

lemma dropWhile_no_space {l : List Char} (h : ∀ c ∈ l, isSpaceChar c = false) :
    l.dropWhile isSpaceChar = l := by
  cases l with
  | nil => rfl
  | cons c cs =>
      rw [List.dropWhile_cons]
      simp [h c (List.mem_cons_self c cs)]

lemma stripChars_no_space {l : List Char} (h : ∀ c ∈ l, isSpaceChar c = false) :
    stripChars l = l := by
  unfold stripChars
  rw [dropWhile_no_space h,
    dropWhile_no_space (fun c hc => h c (List.mem_reverse.mp hc)),
    List.reverse_reverse]

lemma stripChars_newline {l : List Char} (hne : l ≠ []) (h : ∀ c ∈ l, isSpaceChar c = false) :
    stripChars (l ++ ['\n']) = l := by
  unfold stripChars
  have h1 : (l ++ ['\n']).dropWhile isSpaceChar = l ++ ['\n'] := by
    cases l with
    | nil => exact absurd rfl hne
    | cons c cs =>
        rw [List.cons_append, List.dropWhile_cons]
        simp [h c (List.mem_cons_self c cs)]
  rw [h1, List.reverse_append]
  simp only [List.reverse_cons, List.reverse_nil, List.nil_append, List.singleton_append]
  rw [List.dropWhile_cons, if_pos (by decide),
    dropWhile_no_space (fun c hc => h c (List.mem_reverse.mp hc)),
    List.reverse_reverse]

lemma pyIntAux_intStr (m : Int) : pyIntAux (intStr m) = some m := by
  by_cases hm : m < 0
  · rw [intStr, if_pos hm]
    simp [pyIntAux, parseNatChars_natStr, abs_of_neg hm]
  · rw [intStr, if_neg hm]
    cases hns : natStr m.natAbs with
    | nil => exact absurd hns (natStr_ne_nil _)
    | cons c cs =>
        have hc : isDigitChar c = true :=
          natStr_all_digits _ c (by rw [hns]; exact List.mem_cons_self c cs)
        obtain ⟨hminus, hplus, _⟩ := digit_facts hc
        simp only [pyIntAux, if_neg hminus, if_neg hplus]
        rw [← hns, parseNatChars_natStr]
        simp only [Option.some.injEq]
        omega

lemma pyIntChars_intStr (m : Int) : pyIntChars (intStr m) = some m := by
  unfold pyIntChars
  rw [stripChars_no_space (intStr_no_space m), pyIntAux_intStr]

lemma pyIntChars_intStr_newline (m : Int) :
    pyIntChars (intStr m ++ ['\n']) = some m := by
  unfold pyIntChars
  rw [stripChars_newline (intStr_ne_nil m) (intStr_no_space m), pyIntAux_intStr]

lemma readline_no_newline {l : List Char} (h : '\n' ∉ l) : readline l = (l, []) := by
  induction l with
  | nil => rfl
  | cons c cs ih =>
      rw [readline, if_neg (by rintro rfl; exact h (List.mem_cons_self _ _)),
        ih (fun hm => h (List.mem_cons_of_mem _ hm))]

lemma readline_line {l : List Char} (rest : List Char) (h : '\n' ∉ l) :
    readline (l ++ '\n' :: rest) = (l ++ ['\n'], rest) := by
  induction l with
  | nil => simp [readline]
  | cons c cs ih =>
      rw [List.cons_append, readline,
        if_neg (by rintro rfl; exact h (List.mem_cons_self _ _)),
        ih (fun hm => h (List.mem_cons_of_mem _ hm))]
      simp

/-- Claim C7: the persisted record round-trips exactly: for every one-line
identity tag (as held in memory, i.e. the tag text followed by its
newline) and every pair of integer positions, writing the record with
`store_pos` and reading it back with the startup load reproduces the
identical tag and both positions via the 3-line text record. -/
theorem store_load_roundtrip (tag : List Char) (m1 m2 : Int) (hnl : '\n' ∉ tag) :
    loadInfo (store_pos (tag ++ ['\n']) m1 m2) = some (tag ++ ['\n'], m1, m2) := by
  have hstore : store_pos (tag ++ ['\n']) m1 m2 =
      tag ++ '\n' :: (intStr m1 ++ '\n' :: intStr m2) := by
    simp [store_pos]
  simp only [loadInfo, hstore]
  rw [readline_line _ hnl]
  simp only
  rw [readline_line _ (intStr_no_newline m1)]
  simp only
  rw [readline_no_newline (intStr_no_newline m2)]
  simp only
  rw [pyIntChars_intStr_newline, pyIntChars_intStr]

/-- Witness for C7 at a concrete tag and signed positions. -/
theorem store_load_roundtrip_witness :
    ('\n' ∉ (['l', 'i', 'f', 't', '1'] : List Char)) ∧
    loadInfo (store_pos (['l', 'i', 'f', 't', '1'] ++ ['\n']) 123 (-45)) =
      some (['l', 'i', 'f', 't', '1'] ++ ['\n'], 123, -45) :=
  ⟨by decide, store_load_roundtrip ['l', 'i', 'f', 't', '1'] 123 (-45) (by decide)⟩

end ImuChip
